import Mathlib

/-!
Verification development for the directory comparison utility
in Davis_BABEL/server_hard_drive_check.py.

The program has two components plus a top-level entry block:

* an indexer, get_all_files_recursive, which walks a directory tree
  (via Path.rglob) and returns a Python dict from relative file path
  to byte size;
* a reconciler, compare_directories, which builds a basename-keyed
  index over the server dict and classifies every hard drive file as
  MISSING, IDENTICAL, or SIZE_DIFF;
* a main block that validates the two command line paths and maps run
  outcomes to exit codes.

The embedding below models Python dicts as insertion-ordered
association lists (inserting an existing key overwrites the value in
place; a new key is appended at the end), Python sets as duplicate-free
lists, and the filesystem traversal as the list of entries that rglob
yields, each entry carrying the observable behaviour of the Python
calls made on it: the result of Path.is_file and Path.is_dir, and
whether Path.stat succeeds together with the reported st_size.
Console output is modelled as a list of structured events, one per
print statement of interest.
-/

namespace ServerHardDriveCheck

/-- Python dict assignment d[k] = v on an association list: if the key is
already present its value is overwritten in place (keeping its position in
insertion order), otherwise the new pair is appended at the end. -/
def dictInsert {α : Type} : List (String × α) → String → α → List (String × α)
  | [], k, v => [(k, v)]
  | e :: rest, k, v => if e.1 = k then (k, v) :: rest else e :: dictInsert rest k v

/-- Python dict lookup d.get(k): the value stored at the first (and, for a
well-formed dict, only) occurrence of the key. -/
def dictFind {α : Type} : List (String × α) → String → Option α
  | [], _ => none
  | e :: rest, k => if e.1 = k then some e.2 else dictFind rest k

/-- Python set.add on a duplicate-free list: append the element unless it is
already present. -/
def setInsert (s : List String) (x : String) : List String :=
  if s.contains x then s else s ++ [x]

/-- Split a character list at every occurrence of the Unix separator,
keeping empty components, accumulating the current component; this is the
component list that p.split(os.sep) produces. -/
def pathComponents : List Char → List Char → List (List Char)
  | [], cur => [cur]
  | c :: rest, cur =>
    if c = '/' then cur :: pathComponents rest []
    else pathComponents rest (cur ++ [c])

/-- os.path.basename on a relative path with the Unix separator: the final
path component, after the last slash. -/
def basename (p : String) : String :=
  String.mk ((pathComponents p.data []).getLastD [])

/-- Join path components back with the separator. -/
def joinComponents : List (List Char) → List Char
  | [] => []
  | [c] => c
  | c :: rest => c ++ '/' :: joinComponents rest

/-- str(PurePath(p).parent) for a relative path p: all components but the
last, joined by the separator; "." when p has a single component. -/
def parentDir (p : String) : String :=
  if (pathComponents p.data []).length ≤ 1 then "."
  else String.mk (joinComponents (pathComponents p.data []).dropLast)

/-- The kind of a directory entry met by the rglob traversal.  A symbolic
link is split by what it resolves to, because the Python predicates observe
the resolved target: Path.is_file returns true for a regular file AND for a
symbolic link whose target is a regular file, Path.is_dir returns true for
a directory and for a symbolic link to a directory, and both return false
for a dangling link, a socket, a device file, or any other entry. -/
inductive PyKind where
  | regular
  | linkToFile
  | directory
  | linkToDir
  | socket
  | device
  | danglingLink
  | other
  deriving DecidableEq, Repr

/-- Result of item.is_file() in the Python library: true exactly for
regular files and symbolic links resolving to regular files. -/
def pyIsFile : PyKind → Bool
  | .regular => true
  | .linkToFile => true
  | _ => false

/-- Result of item.is_dir() in the Python library: true exactly for
directories and symbolic links resolving to directories. -/
def pyIsDir : PyKind → Bool
  | .directory => true
  | .linkToDir => true
  | _ => false

/-- One directory entry as the traversal observes it: its path relative to
the scanned root (stringified with the Unix separator), its kind, the
st_size that stat() reports for it (for a symbolic link, the size of the
resolved target, since stat follows links), and whether that stat() call
succeeds (statOk = false models stat raising OSError or PermissionError). -/
structure FSEntry where
  relPath : String
  kind : PyKind
  size : Nat
  statOk : Bool
  deriving DecidableEq, Repr

/-- The print statements of the indexer scan loop, as structured events. -/
inductive OutEvent where
  | foundFile (rel : String) (size : Nat)
  | accessWarning (rel : String)
  | processingDir (rel : String)
  | progress (current : Nat) (total : Nat)
  deriving DecidableEq, Repr

/-- The local state of get_all_files_recursive: the files_info dict, the
directories_processed set, the processed_files counter, and the console
output emitted so far. -/
structure ScanState where
  files_info : List (String × Nat)
  directories_processed : List String
  processed_files : Nat
  output : List OutEvent
  deriving DecidableEq, Repr

/-- One iteration of the main scan loop of get_all_files_recursive (lines
68 to 99 of the source).  For a file entry: try stat; on success record
(relative path, size) in files_info, track the parent directory, and in
verbose mode print the file; on OSError or PermissionError print a warning
in verbose mode only; in either case bump processed_files and, when not
verbose, redraw the progress bar (which prints nothing when the total is
zero).  For a directory entry: track it and print it in verbose mode.
Any other entry is ignored. -/
def scanStep (verbose : Bool) (total_files : Nat) (st : ScanState) (e : FSEntry) :
    ScanState :=
  if pyIsFile e.kind then
    let st1 : ScanState :=
      if e.statOk then
        { files_info := dictInsert st.files_info e.relPath e.size
          directories_processed :=
            if parentDir e.relPath ≠ "." then
              setInsert st.directories_processed (parentDir e.relPath)
            else st.directories_processed
          processed_files := st.processed_files
          output :=
            if verbose then st.output ++ [OutEvent.foundFile e.relPath e.size]
            else st.output }
      else
        { st with
            output :=
              if verbose then st.output ++ [OutEvent.accessWarning e.relPath]
              else st.output }
    let st2 : ScanState := { st1 with processed_files := st1.processed_files + 1 }
    if verbose then st2
    else
      { st2 with
          output :=
            if total_files = 0 then st2.output
            else st2.output ++ [OutEvent.progress st2.processed_files total_files] }
  else if pyIsDir e.kind then
    { st with
        directories_processed := setInsert st.directories_processed e.relPath
        output :=
          if verbose then st.output ++ [OutEvent.processingDir e.relPath]
          else st.output }
  else st

/-- get_all_files_recursive: a first rglob pass counts the entries for
which is_file() holds (the progress total), then the main pass folds
scanStep over the same entries starting from empty state.  The Python
function returns files_info; the other fields model its local variables
and its console output. -/
def get_all_files_recursive (verbose : Bool) (entries : List FSEntry) : ScanState :=
  entries.foldl (scanStep verbose (entries.countP fun e => pyIsFile e.kind))
    { files_info := [], directories_processed := [], processed_files := 0, output := [] }

/-- The per-file classification lines that compare_directories prints, as
structured events: the CHECKING header and then exactly one of the MISSING,
IDENTICAL, or SIZE_DIFF lines.  The IDENTICAL event carries the server
paths of the size-matching candidates (the source prints the single path,
or the comma-joined list when there are several); the SIZE_DIFF event
carries every same-named server instance with its size. -/
inductive CompareEvent where
  | checking (file_path : String)
  | missingMsg (filename : String) (size : Nat)
  | identicalMsg (filename : String) (matchPaths : List String) (size : Nat)
  | sizeDiffMsg (filename : String) (hdSize : Nat) (serverInstances : List (String × Nat))
  deriving DecidableEq, Repr

/-- The statistics and detail lists that compare_directories accumulates,
together with the classification output it prints.  The two totals are
filled in from the lengths of the two dicts, as in the printed summary. -/
structure Report where
  total_hard_drive : Nat
  total_server : Nat
  missing_files : Nat
  size_mismatch_files : Nat
  identical_files : Nat
  missing_file_details : List (String × Nat)
  mismatch_file_details : List (String × Nat × List (String × Nat))
  output : List CompareEvent
  deriving DecidableEq, Repr

/-- server_files_by_name (lines 141 to 146 of the source): fold over the
server dict items in insertion order; for each (path, size), append the
pair to the list stored under its basename, creating the key with an empty
list first when absent. -/
def buildNameIndex (server_files : List (String × Nat)) :
    List (String × List (String × Nat)) :=
  server_files.foldl
    (fun acc e =>
      dictInsert acc (basename e.1) (((dictFind acc (basename e.1)).getD []) ++ [e]))
    []

/-- The classification outcome assigned to one hard drive file: a tagged
variant recording, for IDENTICAL, the size-matching candidates, and for
SIZE_DIFF, every same-named server instance. -/
inductive ComparisonOutcome where
  | Missing
  | SizeMatch (matching_files : List (String × Nat))
  | SizeMismatch (candidates : List (String × Nat))
  deriving DecidableEq, Repr

/-- The branch structure of the comparison loop body (lines 160 to 185):
basename absent from the name index gives Missing; otherwise filter the
candidates on exact size equality, a nonempty filter gives SizeMatch with
exactly the filtered candidates, an empty one gives SizeMismatch with the
full same-named list. -/
def classify (byName : List (String × List (String × Nat)))
    (file_path : String) (hard_drive_size : Nat) : ComparisonOutcome :=
  match dictFind byName (basename file_path) with
  | none => ComparisonOutcome.Missing
  | some cands =>
    let matching := cands.filter fun c => c.2 == hard_drive_size
    if matching.isEmpty then ComparisonOutcome.SizeMismatch cands
    else ComparisonOutcome.SizeMatch matching

/-- One iteration of the comparison loop (lines 156 to 185): print the
CHECKING line, then either count a missing file and append it to the
missing details, count an identical file (details are not retained), or
count a size mismatch and append the file with all same-named server
instances to the mismatch details. -/
def compareStep (byName : List (String × List (String × Nat)))
    (r : Report) (e : String × Nat) : Report :=
  let filename := basename e.1
  let r0 : Report := { r with output := r.output ++ [CompareEvent.checking e.1] }
  match dictFind byName filename with
  | none =>
    { r0 with
        output := r0.output ++ [CompareEvent.missingMsg filename e.2]
        missing_files := r0.missing_files + 1
        missing_file_details := r0.missing_file_details ++ [e] }
  | some cands =>
    let matching := cands.filter fun c => c.2 == e.2
    if matching.isEmpty then
      { r0 with
          output := r0.output ++ [CompareEvent.sizeDiffMsg filename e.2 cands]
          size_mismatch_files := r0.size_mismatch_files + 1
          mismatch_file_details := r0.mismatch_file_details ++ [(e.1, e.2, cands)] }
    else
      { r0 with
          output :=
            r0.output ++ [CompareEvent.identicalMsg filename (matching.map Prod.fst) e.2]
          identical_files := r0.identical_files + 1 }

/-- The comparison order sorted(hard_drive_files.items()): Python sorts
the (path, size) tuples lexicographically, path first. -/
def itemLe (a b : String × Nat) : Bool :=
  decide (a.1 < b.1) || (decide (a.1 = b.1) && decide (a.2 ≤ b.2))

/-- The reconciliation part of compare_directories (lines 140 to 206),
taking the two dicts that the two indexer calls return: build the
basename index over the server dict, then fold the comparison loop over
the hard drive items sorted ascending, starting from zero counters, empty
detail lists, and the two totals taken from the dict lengths. -/
def compare_directories (hard_drive_files server_files : List (String × Nat)) :
    Report :=
  (hard_drive_files.mergeSort itemLe).foldl
    (compareStep (buildNameIndex server_files))
    { total_hard_drive := hard_drive_files.length
      total_server := server_files.length
      missing_files := 0
      size_mismatch_files := 0
      identical_files := 0
      missing_file_details := []
      mismatch_file_details := []
      output := [] }

/-- What happens once compare_directories is entered: it runs to
completion producing a report, or raises PermissionError,
KeyboardInterrupt, or any other exception. -/
inductive RunOutcome where
  | completed (report : Report)
  | permissionError
  | interrupted
  | unexpectedError
  deriving DecidableEq, Repr

/-- The distinct ERROR messages the main block can print before exiting
with status 1, plus the three exception handlers around the comparison. -/
inductive MainError where
  | hdNotExist (p : String)
  | serverNotExist (p : String)
  | bothNotExist
  | hdNotDir (p : String)
  | serverNotDir (p : String)
  | bothNotDir
  | permissionDenied
  | cancelledByUser
  | unexpected
  deriving DecidableEq, Repr

/-- The literal text of each error message (apostrophes written as
escapes). -/
def renderError : MainError → String
  | .hdNotExist p => "ERROR: Hard drive path \x27" ++ p ++ "\x27 does not exist."
  | .serverNotExist p => "ERROR: Server directory path \x27" ++ p ++ "\x27 does not exist."
  | .bothNotExist => "ERROR: Both directory paths do not exist."
  | .hdNotDir p => "ERROR: Hard drive path \x27" ++ p ++ "\x27 is not a directory."
  | .serverNotDir p => "ERROR: Server directory path \x27" ++ p ++ "\x27 is not a directory."
  | .bothNotDir => "ERROR: The paths entered are not directories."
  | .permissionDenied => "ERROR: Permission denied accessing files"
  | .cancelledByUser => "Operation cancelled by user."
  | .unexpected => "ERROR: An unexpected error occurred"

/-- The environment the main block runs in: the two path arguments, what
os.path.exists and os.path.isdir answer for each, and how the comparison
itself ends if it is reached. -/
structure MainEnv where
  hd_path : String
  server_path : String
  hd_exists : Bool
  server_exists : Bool
  hd_isdir : Bool
  server_isdir : Bool
  run : RunOutcome
  deriving Repr

/-- What a run of the main block produces: the process exit status, the
error printed (if any), and whether compare_directories was entered at
all. -/
structure MainResult where
  exitCode : Nat
  error : Option MainError
  scanned : Bool
  deriving DecidableEq, Repr

/-- The main block (lines 246 to 281): first the existence check on both
paths, with the hard drive path tested first inside the combined branch;
then the isdir check, same shape; then compare_directories under the three
exception handlers, exiting 0 when it completes and 1 from every handler. -/
def mainRun (env : MainEnv) : MainResult :=
  if ¬(env.hd_exists && env.server_exists) then
    if ¬env.hd_exists then
      { exitCode := 1, error := some (MainError.hdNotExist env.hd_path), scanned := false }
    else if ¬env.server_exists then
      { exitCode := 1, error := some (MainError.serverNotExist env.server_path),
        scanned := false }
    else
      { exitCode := 1, error := some MainError.bothNotExist, scanned := false }
  else if ¬(env.hd_isdir && env.server_isdir) then
    if ¬env.hd_isdir then
      { exitCode := 1, error := some (MainError.hdNotDir env.hd_path), scanned := false }
    else if ¬env.server_isdir then
      { exitCode := 1, error := some (MainError.serverNotDir env.server_path),
        scanned := false }
    else
      { exitCode := 1, error := some MainError.bothNotDir, scanned := false }
  else
    match env.run with
    | .completed _ => { exitCode := 0, error := none, scanned := true }
    | .permissionError =>
      { exitCode := 1, error := some MainError.permissionDenied, scanned := true }
    | .interrupted =>
      { exitCode := 1, error := some MainError.cancelledByUser, scanned := true }
    | .unexpectedError =>
      { exitCode := 1, error := some MainError.unexpected, scanned := true }

/-- The rendered message of an error names the path p when the path
occurs verbatim inside it. -/
def namesPath (m : MainError) (p : String) : Prop :=
  ∃ a b, renderError m = a ++ p ++ b

/-! ### Lemmas about the dict model -/

theorem dictFind_dictInsert {α : Type} (d : List (String × α)) (k n : String) (v : α) :
    dictFind (dictInsert d k v) n = if n = k then some v else dictFind d n := by
  induction d with
  | nil =>
    by_cases h : n = k
    · simp [dictInsert, dictFind, h]
    · have hk : ¬k = n := fun h2 => h h2.symm
      simp [dictInsert, dictFind, h, hk]
  | cons e rest ih =>
    by_cases hek : e.1 = k
    · by_cases hnk : n = k
      · simp [dictInsert, dictFind, hek, hnk]
      · have hkn : ¬k = n := fun h2 => hnk h2.symm
        have hen : ¬e.1 = n := fun h2 => hnk (hek.symm.trans h2).symm
        simp [dictInsert, dictFind, hek, hnk, hkn, hen]
    · by_cases hen : e.1 = n
      · have hnk : ¬n = k := fun h => hek (hen.trans h)
        simp [dictInsert, dictFind, hek, hen, hnk]
      · simp [dictInsert, dictFind, hek, hen, ih]

theorem mem_dictInsert {α : Type} (d : List (String × α)) (k : String) (v : α)
    (x : String × α) (h : x ∈ dictInsert d k v) : x = (k, v) ∨ x ∈ d := by
  induction d with
  | nil => simpa [dictInsert] using h
  | cons e rest ih =>
    by_cases hek : e.1 = k
    · simp only [dictInsert, hek, if_pos] at h
      rcases List.mem_cons.mp h with h1 | h1
      · exact Or.inl h1
      · exact Or.inr (List.mem_cons_of_mem _ h1)
    · simp only [dictInsert, hek, if_neg, not_false_iff] at h
      rcases List.mem_cons.mp h with h1 | h1
      · exact Or.inr (h1 ▸ List.mem_cons_self _ _)
      · rcases ih h1 with h2 | h2
        · exact Or.inl h2
        · exact Or.inr (List.mem_cons_of_mem _ h2)

/-- One step of the name index construction. -/
theorem dictFind_buildNameIndex_aux (t : List (String × Nat)) (n : String) :
    ∀ acc : List (String × List (String × Nat)),
      dictFind
        (t.foldl
          (fun acc e =>
            dictInsert acc (basename e.1)
              (((dictFind acc (basename e.1)).getD []) ++ [e]))
          acc) n =
      (match dictFind acc n with
       | some l => some (l ++ t.filter fun c => basename c.1 == n)
       | none =>
         if (t.filter fun c => basename c.1 == n).isEmpty then none
         else some (t.filter fun c => basename c.1 == n)) := by
  induction t with
  | nil =>
    intro acc
    cases h : dictFind acc n <;> simp [h]
  | cons e t ih =>
    intro acc
    rw [List.foldl_cons, ih]
    rw [dictFind_dictInsert]
    by_cases hn : n = basename e.1
    · have hpred : (basename e.1 == n) = true := by simp [hn]
      cases h : dictFind acc n with
      | some l =>
        rw [if_pos hn]
        rw [hn] at h
        simp only [h, Option.getD_some, List.filter_cons, hpred, if_pos]
        simp [List.append_assoc]
      | none =>
        rw [if_pos hn]
        rw [hn] at h
        simp only [h, Option.getD_none, List.nil_append, List.filter_cons, hpred, if_pos]
        simp
    · have hpred : (basename e.1 == n) = false := by
        simp only [beq_eq_false_iff_ne, ne_eq]
        exact fun h2 => hn h2.symm
      rw [if_neg hn]
      simp only [List.filter_cons, hpred]
      rfl

/-- The candidate list recorded in server_files_by_name under a basename is
exactly the list of server dict items whose basename equals it, in server
dict insertion order; the key is absent exactly when no server item has
that basename. -/
theorem dictFind_buildNameIndex (server_files : List (String × Nat)) (n : String) :
    dictFind (buildNameIndex server_files) n =
      (if (server_files.filter fun c => basename c.1 == n).isEmpty then none
       else some (server_files.filter fun c => basename c.1 == n)) := by
  have h := dictFind_buildNameIndex_aux server_files n []
  simpa [buildNameIndex, dictFind] using h

/-! ### Lemmas about the comparison fold -/

/-- Every iteration of the comparison loop increments exactly one of the
three outcome counters, by one. -/
theorem compareStep_counts (byName : List (String × List (String × Nat)))
    (r : Report) (e : String × Nat) :
    (compareStep byName r e).missing_files + (compareStep byName r e).identical_files +
        (compareStep byName r e).size_mismatch_files =
      r.missing_files + r.identical_files + r.size_mismatch_files + 1 := by
  unfold compareStep
  dsimp only
  split
  · simp
    omega
  · split
    · simp
      omega
    · simp
      omega

theorem foldl_compareStep_counts (byName : List (String × List (String × Nat)))
    (l : List (String × Nat)) :
    ∀ r : Report,
      (l.foldl (compareStep byName) r).missing_files +
          (l.foldl (compareStep byName) r).identical_files +
          (l.foldl (compareStep byName) r).size_mismatch_files =
        r.missing_files + r.identical_files + r.size_mismatch_files + l.length := by
  induction l with
  | nil => intro r; simp
  | cons e l ih =>
    intro r
    rw [List.foldl_cons, ih, compareStep_counts]
    simp [Nat.add_assoc, Nat.add_comm, Nat.add_left_comm]

/-- The totals recorded in the report are not touched by the loop. -/
theorem foldl_compareStep_totals (byName : List (String × List (String × Nat)))
    (l : List (String × Nat)) :
    ∀ r : Report,
      (l.foldl (compareStep byName) r).total_hard_drive = r.total_hard_drive ∧
      (l.foldl (compareStep byName) r).total_server = r.total_server := by
  induction l with
  | nil => intro r; simp
  | cons e l ih =>
    intro r
    rw [List.foldl_cons]
    rw [(ih _).1, (ih _).2]
    unfold compareStep
    dsimp only
    split
    · simp
    · split
      · simp
      · simp

/-- The missing detail list grows by exactly the loop items whose basename
is absent from the name index, in loop order. -/
theorem foldl_compareStep_missing (byName : List (String × List (String × Nat)))
    (l : List (String × Nat)) :
    ∀ r : Report,
      (l.foldl (compareStep byName) r).missing_file_details =
        r.missing_file_details ++
          l.filter (fun e => (dictFind byName (basename e.1)).isNone) := by
  induction l with
  | nil => intro r; simp
  | cons e l ih =>
    intro r
    rw [List.foldl_cons, ih]
    unfold compareStep
    dsimp only
    split
    next h => simp [List.filter_cons, h]
    next cands h =>
      split <;> simp [List.filter_cons, h]

/-- The size mismatch detail list grows by exactly the loop items found by
name with no size-equal candidate, in loop order, each carrying the full
same-named candidate list. -/
theorem foldl_compareStep_mismatch (byName : List (String × List (String × Nat)))
    (l : List (String × Nat)) :
    ∀ r : Report,
      (l.foldl (compareStep byName) r).mismatch_file_details =
        r.mismatch_file_details ++
          l.filterMap (fun e =>
            match dictFind byName (basename e.1) with
            | none => none
            | some cands =>
              if (cands.filter fun c => c.2 == e.2).isEmpty then
                some (e.1, e.2, cands)
              else none) := by
  induction l with
  | nil => intro r; simp
  | cons e l ih =>
    intro r
    rw [List.foldl_cons, ih]
    unfold compareStep
    dsimp only
    split
    next h => simp [List.filterMap_cons, h]
    next cands h =>
      split
      next hm => simp [List.filterMap_cons, h, hm]
      next hm => simp [List.filterMap_cons, h, hm]

/-- Projection keeping only the CHECKING lines of the comparison output. -/
def checkedPath : CompareEvent → Option String
  | .checking p => some p
  | _ => none

/-- The CHECKING lines printed by the loop list the loop items in loop
order: one line per item, carrying its relative path. -/
theorem foldl_compareStep_checking (byName : List (String × List (String × Nat)))
    (l : List (String × Nat)) :
    ∀ r : Report,
      (l.foldl (compareStep byName) r).output.filterMap checkedPath =
        r.output.filterMap checkedPath ++ l.map Prod.fst := by
  induction l with
  | nil => intro r; simp
  | cons e l ih =>
    intro r
    rw [List.foldl_cons, ih]
    unfold compareStep
    dsimp only
    split
    · simp [List.filterMap_append, checkedPath]
    · split <;> simp [List.filterMap_append, checkedPath]

/-! ### The sort order -/

theorem itemLe_trans (a b c : String × Nat) (hab : itemLe a b) (hbc : itemLe b c) :
    itemLe a c := by
  simp only [itemLe, Bool.or_eq_true, Bool.and_eq_true, decide_eq_true_eq] at *
  rcases hab with h1 | ⟨h1, h2⟩
  · rcases hbc with h3 | ⟨h3, h4⟩
    · exact Or.inl (lt_trans h1 h3)
    · exact Or.inl (h3 ▸ h1)
  · rcases hbc with h3 | ⟨h3, h4⟩
    · exact Or.inl (h1 ▸ h3)
    · exact Or.inr ⟨h1.trans h3, le_trans h2 h4⟩

theorem itemLe_total (a b : String × Nat) : itemLe a b || itemLe b a := by
  simp only [itemLe, Bool.or_eq_true, Bool.and_eq_true, decide_eq_true_eq]
  rcases lt_trichotomy a.1 b.1 with h | h | h
  · exact Or.inl (Or.inl h)
  · rcases Nat.le_total a.2 b.2 with h2 | h2
    · exact Or.inl (Or.inr ⟨h, h2⟩)
    · exact Or.inr (Or.inr ⟨h.symm, h2⟩)
  · exact Or.inr (Or.inl h)

theorem itemLe_path_le (a b : String × Nat) (h : itemLe a b) : a.1 ≤ b.1 := by
  simp only [itemLe, Bool.or_eq_true, Bool.and_eq_true, decide_eq_true_eq] at h
  rcases h with h | ⟨h, _⟩
  · exact le_of_lt h
  · exact le_of_eq h

/-- The sorted hard drive item list is pairwise ascending on paths. -/
theorem mergeSort_itemLe_pairwise (l : List (String × Nat)) :
    (l.mergeSort itemLe).Pairwise fun a b => a.1 ≤ b.1 := by
  have h := @List.sorted_mergeSort (String × Nat) itemLe
    (fun a b c => itemLe_trans a b c) (fun a b => itemLe_total a b) l
  exact h.imp (fun hab => itemLe_path_le _ _ hab)

/-! ### Lemmas about the indexer fold -/

/-- The effect of one scan iteration on files_info alone: insert the
(relative path, size) pair when the entry answers is_file() and its stat
succeeds; otherwise leave the dict unchanged. -/
def filesStep (fi : List (String × Nat)) (e : FSEntry) : List (String × Nat) :=
  if pyIsFile e.kind && e.statOk then dictInsert fi e.relPath e.size else fi

theorem scanStep_files_info (verbose : Bool) (total_files : Nat) (st : ScanState)
    (e : FSEntry) :
    (scanStep verbose total_files st e).files_info = filesStep st.files_info e := by
  cases hf : pyIsFile e.kind <;> cases hs : e.statOk <;> cases verbose <;>
    simp [scanStep, filesStep, hf, hs] <;> split <;> simp

theorem foldl_scanStep_files_info (verbose : Bool) (total_files : Nat)
    (entries : List FSEntry) :
    ∀ st : ScanState,
      (entries.foldl (scanStep verbose total_files) st).files_info =
        entries.foldl filesStep st.files_info := by
  induction entries with
  | nil => intro st; rfl
  | cons e entries ih =>
    intro st
    rw [List.foldl_cons, List.foldl_cons, ih, scanStep_files_info]

/-- The files_info dict that the scan returns, as a fold of filesStep over
the traversal, independent of the verbose flag and the progress total. -/
theorem get_all_files_recursive_files_info (verbose : Bool) (entries : List FSEntry) :
    (get_all_files_recursive verbose entries).files_info =
      entries.foldl filesStep [] := by
  unfold get_all_files_recursive
  rw [foldl_scanStep_files_info]

/-- Every pair in a filesStep fold comes from the starting dict or from a
traversal entry that answers is_file() and whose stat succeeds. -/
theorem mem_foldl_filesStep (entries : List FSEntry) (p : String) (sz : Nat) :
    ∀ fi : List (String × Nat),
      (p, sz) ∈ entries.foldl filesStep fi →
      (p, sz) ∈ fi ∨
        ∃ e, e ∈ entries ∧ pyIsFile e.kind = true ∧ e.statOk = true ∧
          e.relPath = p ∧ e.size = sz := by
  induction entries with
  | nil =>
    intro fi h
    exact Or.inl h
  | cons e entries ih =>
    intro fi h
    rw [List.foldl_cons] at h
    rcases ih _ h with h1 | ⟨f, hf, h2⟩
    · unfold filesStep at h1
      by_cases hc : pyIsFile e.kind && e.statOk
      · rw [if_pos hc] at h1
        rcases mem_dictInsert _ _ _ _ h1 with h2 | h2
        · rcases Bool.and_eq_true .. |>.mp hc with ⟨hc1, hc2⟩
          refine Or.inr ⟨e, List.mem_cons_self _ _, hc1, hc2, ?_, ?_⟩
          · exact (congrArg Prod.fst h2).symm
          · exact (congrArg Prod.snd h2).symm
        · exact Or.inl h2
      · rw [if_neg hc] at h1
        exact Or.inl h1
    · exact Or.inr ⟨f, List.mem_cons_of_mem _ hf, h2⟩

/-- Each scan iteration only appends to the console output. -/
theorem scanStep_output_extends (verbose : Bool) (total_files : Nat) (st : ScanState)
    (e : FSEntry) :
    ∃ tail, (scanStep verbose total_files st e).output = st.output ++ tail := by
  cases hf : pyIsFile e.kind <;> cases hs : e.statOk <;> cases verbose <;>
    simp [scanStep, hf, hs] <;> split <;> simp

theorem foldl_scanStep_output_extends (verbose : Bool) (total_files : Nat)
    (entries : List FSEntry) :
    ∀ st : ScanState,
      ∃ tail, (entries.foldl (scanStep verbose total_files) st).output =
        st.output ++ tail := by
  induction entries with
  | nil => intro st; exact ⟨[], by simp⟩
  | cons e entries ih =>
    intro st
    rw [List.foldl_cons]
    obtain ⟨t1, h1⟩ := scanStep_output_extends verbose total_files st e
    obtain ⟨t2, h2⟩ := ih (scanStep verbose total_files st e)
    exact ⟨t1 ++ t2, by rw [h2, h1, List.append_assoc]⟩

/-- With the verbose flag off, no scan iteration ever prints an access
warning. -/
theorem scanStep_no_warning (total_files : Nat) (st : ScanState) (e : FSEntry)
    (rel : String) (h : OutEvent.accessWarning rel ∉ st.output) :
    OutEvent.accessWarning rel ∉ (scanStep false total_files st e).output := by
  cases hf : pyIsFile e.kind <;> cases hs : e.statOk <;>
    simp [scanStep, hf, hs] <;> split <;> simp [h]

theorem foldl_scanStep_no_warning (total_files : Nat) (entries : List FSEntry)
    (rel : String) :
    ∀ st : ScanState, OutEvent.accessWarning rel ∉ st.output →
      OutEvent.accessWarning rel ∉
        (entries.foldl (scanStep false total_files) st).output := by
  induction entries with
  | nil => intro st h; exact h
  | cons e entries ih =>
    intro st h
    rw [List.foldl_cons]
    exact ih _ (scanStep_no_warning total_files st e rel h)

/-! ### Single-step characterizations used by the per-file claims -/

theorem classify_found (byName : List (String × List (String × Nat)))
    (p : String) (sz : Nat) (cands : List (String × Nat))
    (h : dictFind byName (basename p) = some cands) :
    classify byName p sz =
      (if (cands.filter fun c => c.2 == sz).isEmpty then
        ComparisonOutcome.SizeMismatch cands
       else ComparisonOutcome.SizeMatch (cands.filter fun c => c.2 == sz)) := by
  unfold classify
  rw [h]

theorem compareStep_found_fields (byName : List (String × List (String × Nat)))
    (r : Report) (p : String) (sz : Nat) (cands : List (String × Nat))
    (h : dictFind byName (basename p) = some cands) :
    (¬(cands.filter fun c => c.2 == sz).isEmpty →
      (compareStep byName r (p, sz)).identical_files = r.identical_files + 1 ∧
      (compareStep byName r (p, sz)).missing_file_details = r.missing_file_details ∧
      (compareStep byName r (p, sz)).mismatch_file_details = r.mismatch_file_details ∧
      (compareStep byName r (p, sz)).output =
        r.output ++ [CompareEvent.checking p,
          CompareEvent.identicalMsg (basename p)
            ((cands.filter fun c => c.2 == sz).map Prod.fst) sz]) ∧
    ((cands.filter fun c => c.2 == sz).isEmpty →
      (compareStep byName r (p, sz)).size_mismatch_files = r.size_mismatch_files + 1 ∧
      (compareStep byName r (p, sz)).missing_file_details = r.missing_file_details ∧
      (compareStep byName r (p, sz)).mismatch_file_details =
        r.mismatch_file_details ++ [(p, sz, cands)] ∧
      (compareStep byName r (p, sz)).output =
        r.output ++ [CompareEvent.checking p,
          CompareEvent.sizeDiffMsg (basename p) sz cands]) := by
  unfold compareStep
  dsimp only
  rw [h]
  dsimp only
  constructor
  · intro hne
    rw [if_neg (by simpa using hne)]
    simp
  · intro hemp
    rw [if_pos (by simpa using hemp)]
    simp

/-! ### The claims -/

/-- Claim C1: every hard drive file is assigned exactly one outcome, so
the missing count plus the identical (size match) count plus the size
mismatch count equals the number of files in the hard drive index, which
is also the reported hard drive total. -/
theorem outcome_partition (hard_drive_files server_files : List (String × Nat)) :
    (compare_directories hard_drive_files server_files).missing_files +
        (compare_directories hard_drive_files server_files).identical_files +
        (compare_directories hard_drive_files server_files).size_mismatch_files =
      hard_drive_files.length ∧
    (compare_directories hard_drive_files server_files).total_hard_drive =
      hard_drive_files.length := by
  unfold compare_directories
  constructor
  · rw [foldl_compareStep_counts]
    simp
  · exact (foldl_compareStep_totals _ _ _).1

/-- Claim C2: a hard drive file whose basename is present in the name
index with at least one size-equal candidate is classified SizeMatch, the
recorded match list is exactly the size-equal candidates (all of them and
only those), the IDENTICAL line reports exactly the paths of those
candidates, and no detail list is touched. -/
theorem sizeMatch_exact (server_files : List (String × Nat)) (p : String) (sz : Nat)
    (cands : List (String × Nat))
    (hfound : dictFind (buildNameIndex server_files) (basename p) = some cands)
    (hex : ∃ c ∈ cands, c.2 = sz) :
    classify (buildNameIndex server_files) p sz =
      ComparisonOutcome.SizeMatch (cands.filter fun c => c.2 == sz) ∧
    (∀ c, c ∈ cands.filter (fun c => c.2 == sz) ↔ c ∈ cands ∧ c.2 = sz) ∧
    (∀ r : Report,
      (compareStep (buildNameIndex server_files) r (p, sz)).identical_files =
          r.identical_files + 1 ∧
      (compareStep (buildNameIndex server_files) r (p, sz)).output =
        r.output ++ [CompareEvent.checking p,
          CompareEvent.identicalMsg (basename p)
            ((cands.filter fun c => c.2 == sz).map Prod.fst) sz]) := by
  obtain ⟨c, hc, hcsz⟩ := hex
  have hmem : c ∈ cands.filter fun c => c.2 == sz := by
    rw [List.mem_filter]
    exact ⟨hc, by simp [hcsz]⟩
  have hne : ¬(cands.filter fun c => c.2 == sz).isEmpty := by
    intro hemp
    rw [List.isEmpty_iff] at hemp
    rw [hemp] at hmem
    simp at hmem
  refine ⟨?_, ?_, ?_⟩
  · rw [classify_found _ _ _ _ hfound, if_neg (by simpa using hne)]
  · intro d
    rw [List.mem_filter]
    simp
  · intro r
    have h := (compareStep_found_fields _ r p sz cands hfound).1 hne
    exact ⟨h.1, h.2.2.2⟩

/-- Claim C2 witness: a target with two files named a.txt, sizes 100 and
50, against a 100 byte source a.txt, classifies SizeMatch listing only the
size 100 candidate. -/
theorem sizeMatch_exact_witness :
    classify (buildNameIndex [("x/a.txt", 100), ("y/a.txt", 50)]) "a.txt" 100 =
      ComparisonOutcome.SizeMatch [("x/a.txt", 100)] :=
  ((sizeMatch_exact [("x/a.txt", 100), ("y/a.txt", 50)] "a.txt" 100
      [("x/a.txt", 100), ("y/a.txt", 50)] (by decide) (by decide)).1).trans (by decide)

/-- Claim C3: a hard drive file whose basename is present in the name
index but with no size-equal candidate is classified SizeMismatch, its
recorded candidate list is the full list of target entries sharing that
basename regardless of their sizes, and one loop iteration appends exactly
that entry to the mismatch details. -/
theorem sizeMismatch_full_candidates (server_files : List (String × Nat))
    (p : String) (sz : Nat) (cands : List (String × Nat))
    (hfound : dictFind (buildNameIndex server_files) (basename p) = some cands)
    (hnone : ∀ c ∈ cands, c.2 ≠ sz) :
    classify (buildNameIndex server_files) p sz =
      ComparisonOutcome.SizeMismatch cands ∧
    cands = server_files.filter (fun c => basename c.1 == basename p) ∧
    (∀ r : Report,
      (compareStep (buildNameIndex server_files) r (p, sz)).size_mismatch_files =
          r.size_mismatch_files + 1 ∧
      (compareStep (buildNameIndex server_files) r (p, sz)).mismatch_file_details =
        r.mismatch_file_details ++ [(p, sz, cands)]) := by
  have hemp : (cands.filter fun c => c.2 == sz).isEmpty := by
    rw [List.isEmpty_iff, List.filter_eq_nil_iff]
    intro c hc
    simpa using hnone c hc
  refine ⟨?_, ?_, ?_⟩
  · rw [classify_found _ _ _ _ hfound, if_pos (by simpa using hemp)]
  · have h := dictFind_buildNameIndex server_files (basename p)
    rw [hfound] at h
    by_cases hf : (server_files.filter fun c => basename c.1 == basename p).isEmpty
    · rw [if_pos hf] at h
      exact absurd h (by simp)
    · rw [if_neg hf] at h
      exact Option.some.inj h
  · intro r
    have h := (compareStep_found_fields _ r p sz cands hfound).2 hemp
    exact ⟨h.1, h.2.2.1⟩

/-- Claim C3 witness: a 100 byte source a.txt against a target holding
a.txt of 50 bytes classifies SizeMismatch with the 50 byte entry as its
candidate list. -/
theorem sizeMismatch_full_candidates_witness :
    classify (buildNameIndex [("a.txt", 50)]) "a.txt" 100 =
      ComparisonOutcome.SizeMismatch [("a.txt", 50)] :=
  (sizeMismatch_full_candidates [("a.txt", 50)] "a.txt" 100 [("a.txt", 50)]
      (by decide) (by decide)).1

/-- Claim C4: the comparison processes the hard drive files in ascending
lexicographic order of relative path (the CHECKING lines list the paths in
ascending order), and the missing and size mismatch detail lists of the
report are in that same ascending path order. -/
theorem classification_and_details_sorted (hard_drive_files server_files :
    List (String × Nat)) :
    (compare_directories hard_drive_files server_files).missing_file_details.Pairwise
        (fun a b => a.1 ≤ b.1) ∧
    (compare_directories hard_drive_files server_files).mismatch_file_details.Pairwise
        (fun a b => a.1 ≤ b.1) ∧
    ((compare_directories hard_drive_files server_files).output.filterMap
        checkedPath).Pairwise (fun a b => a ≤ b) := by
  unfold compare_directories
  refine ⟨?_, ?_, ?_⟩
  · rw [foldl_compareStep_missing]
    simp only [List.nil_append]
    exact (mergeSort_itemLe_pairwise hard_drive_files).filter _
  · rw [foldl_compareStep_mismatch]
    simp only [List.nil_append]
    refine List.Pairwise.filterMap _ ?_ (mergeSort_itemLe_pairwise hard_drive_files)
    intro a b hab x hx y hy
    have hxa : x.1 = a.1 := by
      rcases hfd : dictFind (buildNameIndex server_files) (basename a.1) with _ | cands <;>
        rw [hfd] at hx
      · simp at hx
      · by_cases hm : (cands.filter fun c => c.2 == a.2).isEmpty
        · simp only [hm, if_pos, Option.mem_def, Option.some.injEq] at hx
          exact congrArg Prod.fst hx.symm
        · simp [hm] at hx
    have hyb : y.1 = b.1 := by
      rcases hfd : dictFind (buildNameIndex server_files) (basename b.1) with _ | cands <;>
        rw [hfd] at hy
      · simp at hy
      · by_cases hm : (cands.filter fun c => c.2 == b.2).isEmpty
        · simp only [hm, if_pos, Option.mem_def, Option.some.injEq] at hy
          exact congrArg Prod.fst hy.symm
        · simp [hm] at hy
    rw [hxa, hyb]
    exact hab
  · rw [foldl_compareStep_checking]
    simp only [List.filterMap_nil, List.nil_append]
    rw [List.pairwise_map]
    exact mergeSort_itemLe_pairwise hard_drive_files

/-- Claim C5: the program exits with status 0 whenever the comparison runs
to completion, whatever the report contains; it exits with status 1 when
either path does not exist or is not a directory, each such case producing
its own distinct error naming the failing path and occurring before any
scanning; and it exits with status 1 on a permission error escaping the
indexer, on user interruption, and on any unexpected error. -/
theorem main_exit_codes (env : MainEnv) :
    (∀ rep, env.run = RunOutcome.completed rep →
      env.hd_exists = true → env.server_exists = true →
      env.hd_isdir = true → env.server_isdir = true →
      mainRun env = { exitCode := 0, error := none, scanned := true }) ∧
    (env.hd_exists = false →
      mainRun env =
        { exitCode := 1, error := some (MainError.hdNotExist env.hd_path),
          scanned := false }) ∧
    (env.hd_exists = true → env.server_exists = false →
      mainRun env =
        { exitCode := 1, error := some (MainError.serverNotExist env.server_path),
          scanned := false }) ∧
    (env.hd_exists = true → env.server_exists = true → env.hd_isdir = false →
      mainRun env =
        { exitCode := 1, error := some (MainError.hdNotDir env.hd_path),
          scanned := false }) ∧
    (env.hd_exists = true → env.server_exists = true → env.hd_isdir = true →
      env.server_isdir = false →
      mainRun env =
        { exitCode := 1, error := some (MainError.serverNotDir env.server_path),
          scanned := false }) ∧
    (env.hd_exists = true → env.server_exists = true → env.hd_isdir = true →
      env.server_isdir = true →
      (env.run = RunOutcome.permissionError ∨ env.run = RunOutcome.interrupted ∨
        env.run = RunOutcome.unexpectedError) →
      (mainRun env).exitCode = 1 ∧ (mainRun env).scanned = true) ∧
    List.Pairwise Ne
      [MainError.hdNotExist env.hd_path, MainError.serverNotExist env.server_path,
        MainError.hdNotDir env.hd_path, MainError.serverNotDir env.server_path] ∧
    namesPath (MainError.hdNotExist env.hd_path) env.hd_path ∧
    namesPath (MainError.serverNotExist env.server_path) env.server_path ∧
    namesPath (MainError.hdNotDir env.hd_path) env.hd_path ∧
    namesPath (MainError.serverNotDir env.server_path) env.server_path := by
  obtain ⟨hdp, sp, he, se, hd, sd, run⟩ := env
  refine ⟨?_, ?_, ?_, ?_, ?_, ?_, ?_, ?_, ?_, ?_, ?_⟩
  · rintro rep hrun rfl rfl rfl rfl
    dsimp only at hrun
    subst hrun
    simp [mainRun]
  · rintro rfl
    simp [mainRun]
  · rintro rfl rfl
    simp [mainRun]
  · rintro rfl rfl rfl
    simp [mainRun]
  · rintro rfl rfl rfl rfl
    simp [mainRun]
  · rintro rfl rfl rfl rfl hrun
    rcases hrun with hrun | hrun | hrun <;> dsimp only at hrun <;> subst hrun <;>
      simp [mainRun]
  · simp
  · exact ⟨"ERROR: Hard drive path \x27", "\x27 does not exist.", rfl⟩
  · exact ⟨"ERROR: Server directory path \x27", "\x27 does not exist.", rfl⟩
  · exact ⟨"ERROR: Hard drive path \x27", "\x27 is not a directory.", rfl⟩
  · exact ⟨"ERROR: Server directory path \x27", "\x27 is not a directory.", rfl⟩

/-- Claim C5 witness: with an existing directory pair and a completed
comparison the exit status is 0; with a missing hard drive path the exit
status is 1, the hard drive error is printed, and nothing is scanned. -/
theorem main_exit_codes_witness :
    mainRun
        { hd_path := "/hd", server_path := "/srv", hd_exists := true,
          server_exists := true, hd_isdir := true, server_isdir := true,
          run := RunOutcome.completed (compare_directories [] []) } =
      { exitCode := 0, error := none, scanned := true } ∧
    mainRun
        { hd_path := "/hd", server_path := "/srv", hd_exists := false,
          server_exists := true, hd_isdir := false, server_isdir := true,
          run := RunOutcome.interrupted } =
      { exitCode := 1, error := some (MainError.hdNotExist "/hd"), scanned := false } :=
  ⟨(main_exit_codes _).1 (compare_directories [] []) rfl rfl rfl rfl rfl,
    (main_exit_codes _).2.1 rfl⟩

/-- Claim C6: a file entry whose stat raises an access error is skipped:
the returned files_info is the same as if the entry were absent (so the
scan continues over all remaining entries), its warning line is printed
when verbose is set, and with verbose off no access warning is ever
printed. -/
theorem access_error_skipped (verbose : Bool) (pre post : List FSEntry) (e : FSEntry)
    (hf : pyIsFile e.kind = true) (hs : e.statOk = false) :
    (get_all_files_recursive verbose (pre ++ e :: post)).files_info =
      (get_all_files_recursive verbose (pre ++ post)).files_info ∧
    (verbose = true →
      OutEvent.accessWarning e.relPath ∈
        (get_all_files_recursive verbose (pre ++ e :: post)).output) ∧
    (verbose = false →
      ∀ rel, OutEvent.accessWarning rel ∉
        (get_all_files_recursive verbose (pre ++ e :: post)).output) := by
  refine ⟨?_, ?_, ?_⟩
  · rw [get_all_files_recursive_files_info, get_all_files_recursive_files_info,
      List.foldl_append, List.foldl_append, List.foldl_cons]
    have hskip : ∀ fi : List (String × Nat), filesStep fi e = fi := by
      intro fi
      unfold filesStep
      rw [if_neg]
      simp [hs]
    rw [hskip]
  · rintro rfl
    unfold get_all_files_recursive
    rw [List.foldl_append, List.foldl_cons]
    have hstep : ∀ st : ScanState,
        (scanStep true ((pre ++ e :: post).countP fun e => pyIsFile e.kind) st e).output =
          st.output ++ [OutEvent.accessWarning e.relPath] := by
      intro st
      simp [scanStep, hf, hs]
    obtain ⟨tail, htail⟩ :=
      foldl_scanStep_output_extends true
        ((pre ++ e :: post).countP fun e => pyIsFile e.kind) post _
    rw [htail, hstep]
    simp
  · rintro rfl rel
    unfold get_all_files_recursive
    exact foldl_scanStep_no_warning _ _ rel _ (by simp)

/-- Claim C6 witness: scanning, in verbose mode, a single regular file
whose stat fails yields an empty index and prints the access warning. -/
theorem access_error_skipped_witness :
    (get_all_files_recursive true
          [{ relPath := "bad.txt", kind := PyKind.regular, size := 5,
             statOk := false }]).files_info =
      (get_all_files_recursive true []).files_info ∧
    OutEvent.accessWarning "bad.txt" ∈
      (get_all_files_recursive true
          [{ relPath := "bad.txt", kind := PyKind.regular, size := 5,
             statOk := false }]).output := by
  have h := access_error_skipped true [] []
    { relPath := "bad.txt", kind := PyKind.regular, size := 5, statOk := false }
    rfl rfl
  exact ⟨h.1, h.2.1 rfl⟩

/-- Claim C7 counterexample: a symbolic link to a regular file IS recorded
in the returned index, with the size of the link target, because
Path.is_file follows symbolic links; so the claim that no symbolic link
contributes a record fails at this input. -/
theorem symlink_to_file_recorded :
    (get_all_files_recursive false
          [{ relPath := "link.txt", kind := PyKind.linkToFile, size := 100,
             statOk := true }]).files_info =
      [("link.txt", 100)] ∧
    PyKind.linkToFile ≠ PyKind.regular ∧ pyIsFile PyKind.linkToFile = true := by
  refine ⟨by decide, by decide, rfl⟩

/-- Claim C7 as amended: every record in the returned index comes from a
traversal entry on which is_file() answered true and whose stat succeeded;
is_file() answers true exactly for regular files and symbolic links to
regular files, so directories, symlinks to directories, dangling links,
sockets, device files and other non-regular entries never contribute a
record, while a symlink to a regular file does. -/
theorem recorded_iff_python_isfile (verbose : Bool) (entries : List FSEntry)
    (p : String) (sz : Nat)
    (h : (p, sz) ∈ (get_all_files_recursive verbose entries).files_info) :
    (∃ e, e ∈ entries ∧ pyIsFile e.kind = true ∧ e.statOk = true ∧
      e.relPath = p ∧ e.size = sz) ∧
    (∀ k, pyIsFile k = true ↔ (k = PyKind.regular ∨ k = PyKind.linkToFile)) := by
  constructor
  · rw [get_all_files_recursive_files_info] at h
    rcases mem_foldl_filesStep entries p sz [] h with h1 | h1
    · simp at h1
    · exact h1
  · intro k
    cases k <;> simp [pyIsFile]

/-- Claim C7 amended witness: the single recorded pair of a one regular
file scan comes from that is_file entry. -/
theorem recorded_iff_python_isfile_witness :
    (∃ e, e ∈ [FSEntry.mk "a.txt" PyKind.regular 1 true] ∧
        pyIsFile e.kind = true ∧ e.statOk = true ∧ e.relPath = "a.txt" ∧ e.size = 1) ∧
    (∀ k, pyIsFile k = true ↔ (k = PyKind.regular ∨ k = PyKind.linkToFile)) :=
  recorded_iff_python_isfile false
    [{ relPath := "a.txt", kind := PyKind.regular, size := 1, statOk := true }]
    "a.txt" 1 (by decide)

/-- Claim C8: for fixed directory contents the returned index is the same
with the verbose flag set or not: the progress and console side channel
never feeds back into files_info. -/
theorem verbose_noninterference (entries : List FSEntry) (v1 v2 : Bool) :
    (get_all_files_recursive v1 entries).files_info =
      (get_all_files_recursive v2 entries).files_info := by
  rw [get_all_files_recursive_files_info, get_all_files_recursive_files_info]

/-- Claim C9: indexing the same unmodified directory twice (two scans
observing the same traversal) yields identical index content, and
re-running the comparison on the same two indexes yields an identical
report. -/
theorem rerun_deterministic (verbose : Bool) (es1 es2 : List FSEntry)
    (s1 s2 t1 t2 : List (String × Nat))
    (hes : es1 = es2) (hs : s1 = s2) (ht : t1 = t2) :
    (get_all_files_recursive verbose es1).files_info =
      (get_all_files_recursive verbose es2).files_info ∧
    compare_directories s1 t1 = compare_directories s2 t2 := by
  subst hes
  subst hs
  subst ht
  exact ⟨rfl, rfl⟩

/-- Claim C9 witness at a concrete directory and index pair. -/
theorem rerun_deterministic_witness :
    (get_all_files_recursive false
          [{ relPath := "a.txt", kind := PyKind.regular, size := 1,
             statOk := true }]).files_info =
      (get_all_files_recursive false
          [{ relPath := "a.txt", kind := PyKind.regular, size := 1,
             statOk := true }]).files_info ∧
    compare_directories [("a.txt", 100)] [] = compare_directories [("a.txt", 100)] [] :=
  rerun_deterministic false
    [{ relPath := "a.txt", kind := PyKind.regular, size := 1, statOk := true }]
    [{ relPath := "a.txt", kind := PyKind.regular, size := 1, statOk := true }]
    [("a.txt", 100)] [("a.txt", 100)] [] [] rfl rfl rfl

/-- Claim C10: the combined error branches are dead code: no input makes
the program print the Both directory paths message or the paths entered
are not directories message, and when both paths are invalid only the
hard drive path error is reported. -/
theorem both_invalid_branches_unreachable (env : MainEnv) :
    (mainRun env).error ≠ some MainError.bothNotExist ∧
    (mainRun env).error ≠ some MainError.bothNotDir ∧
    (env.hd_exists = false → env.server_exists = false →
      mainRun env =
        { exitCode := 1, error := some (MainError.hdNotExist env.hd_path),
          scanned := false }) ∧
    (env.hd_exists = true → env.server_exists = true → env.hd_isdir = false →
      env.server_isdir = false →
      mainRun env =
        { exitCode := 1, error := some (MainError.hdNotDir env.hd_path),
          scanned := false }) := by
  obtain ⟨hdp, sp, he, se, hd, sd, run⟩ := env
  refine ⟨?_, ?_, ?_, ?_⟩
  · cases he <;> cases se <;> cases hd <;> cases sd <;> cases run <;>
      simp [mainRun]
  · cases he <;> cases se <;> cases hd <;> cases sd <;> cases run <;>
      simp [mainRun]
  · rintro rfl rfl
    simp [mainRun]
  · rintro rfl rfl rfl rfl
    simp [mainRun]

/-- Claim C10 witness: with both paths nonexistent, only the hard drive
error is reported. -/
theorem both_invalid_branches_unreachable_witness :
    mainRun
        { hd_path := "/hd", server_path := "/srv", hd_exists := false,
          server_exists := false, hd_isdir := false, server_isdir := false,
          run := RunOutcome.unexpectedError } =
      { exitCode := 1, error := some (MainError.hdNotExist "/hd"), scanned := false } :=
  (both_invalid_branches_unreachable _).2.2.1 rfl rfl

end ServerHardDriveCheck
